import Mathlib

/-!
Shallow embedding of the budget tracker (src/budget_tracker_app.py).

The program keeps all state in a SQLite database with two tables,
`users(id, username UNIQUE, password)` and
`transactions(id, date, category, amount, user_id)`.  We model the store as
an explicit `DB` record and each data-layer function of the source as a pure
Lean function from `DB` (plus its arguments) to its result and/or the updated
`DB`.  The "current user" that the source reads from `st.session_state` is
passed explicitly, as the spec also prescribes.

`hash_pwd` in the source is `hashlib.sha256(pwd.encode()).hexdigest()`: a
deterministic pure function of the plaintext.  Its internals are irrelevant to
every claim, so the development is parametrised over an arbitrary function
`hash_pwd : String → String`; determinism holds definitionally for a Lean
function, and every theorem below holds for all choices of it.

Amounts are stored as SQLite `REAL` (IEEE doubles).  They are modelled as
exact integers `Int`: every concrete amount appearing in the claims is a
small integer, on which double arithmetic is exact, so the model and the code
agree on all inputs the claims mention, and no claim depends on rounding.
-/

namespace BudgetTracker

/-- One row of the `users` table: `id INTEGER PRIMARY KEY AUTOINCREMENT`,
`username TEXT UNIQUE`, `password TEXT` (the hex digest, never plaintext). -/
structure UserRow where
  id : Nat
  username : String
  password : String
deriving Repr, DecidableEq

/-- One row of the `transactions` table.  `user_id` is optional because the
column is nullable and is absent altogether in legacy schemas (before
`ensure_schema` adds it, every row reads as NULL = `none`). -/
structure TxRow where
  id : Nat
  date : String
  category : String
  amount : Int
  user_id : Option Nat
deriving Repr, DecidableEq

/-- The persistent store.  The three Booleans model schema state: whether each
table exists and whether `transactions` has the `user_id` column (what
`PRAGMA table_info` reports).  `nextUserId` and `nextTxId` model the
AUTOINCREMENT counters. -/
structure DB where
  usersTableExists : Bool
  txTableExists : Bool
  txHasUserId : Bool
  users : List UserRow
  txs : List TxRow
  nextUserId : Nat
  nextTxId : Nat
deriving Repr, DecidableEq

/-- A store with no tables at all: the state before the very first
`ensure_schema()` on a fresh database file. -/
def DB.empty : DB :=
  { usersTableExists := false, txTableExists := false, txHasUserId := false,
    users := [], txs := [], nextUserId := 1, nextTxId := 1 }

/-- Source `ensure_schema` (lines 18-49): create `users` if absent; seed the
`admin` user when the table is empty; create `transactions` if absent (the
CREATE statement has no `user_id` column); if `PRAGMA table_info` shows no
`user_id` column, `ALTER TABLE ... ADD COLUMN user_id` (all existing rows read
NULL) then `UPDATE transactions SET user_id = 1 WHERE user_id IS NULL`. -/
def ensure_schema (hash_pwd : String → String) (db : DB) : DB :=
  let db1 : DB := { db with usersTableExists := true }
  let db2 : DB :=
    if db1.users.length = 0 then
      { db1 with
          users := db1.users ++
            [{ id := db1.nextUserId, username := "admin",
               password := hash_pwd "admin" }],
          nextUserId := db1.nextUserId + 1 }
    else db1
  let db3 : DB := { db2 with txTableExists := true }
  if db3.txHasUserId then db3
  else
    { db3 with
        txHasUserId := true,
        txs := db3.txs.map fun t =>
          if t.user_id = none then { t with user_id := some 1 } else t }

/-- Source `authenticate` (lines 52-59): `SELECT id, password FROM users WHERE
username=?` takes the first row with that exact username (at most one, by the
UNIQUE constraint); the id is returned only when the stored digest equals
`hash_pwd(password)`, else `None`. -/
def authenticate (hash_pwd : String → String) (db : DB)
    (username password : String) : Option Nat :=
  match db.users.find? (fun u => u.username == username) with
  | none => none
  | some u => if u.password = hash_pwd password then some u.id else none

/-- Source `get_username` (lines 62-65): first row with that id, else the
sentinel string. -/
def get_username (db : DB) (user_id : Nat) : String :=
  match db.users.find? (fun u => u.id == user_id) with
  | none => "unknown"
  | some u => u.username

/-- Source `change_password` (lines 68-71): `UPDATE users SET password=?
WHERE id=?` overwrites the digest of every row whose id matches (at most one,
ids being the primary key) and touches nothing else. -/
def change_password (hash_pwd : String → String) (db : DB)
    (user_id : Nat) (new_pwd : String) : DB :=
  { db with
      users := db.users.map fun u =>
        if u.id = user_id then { u with password := hash_pwd new_pwd } else u }

/-- Source `create_user` (lines 74-84): the INSERT raises `IntegrityError`
exactly when the UNIQUE constraint on `username` is violated (byte-wise string
equality, SQLite BINARY collation); the handler turns that into `False` with
the store unchanged.  Success appends the row with the next id and returns
`True`. -/
def create_user (hash_pwd : String → String) (db : DB)
    (username password : String) : Bool × DB :=
  if db.users.any (fun u => u.username == username) then (false, db)
  else
    (true,
      { db with
          users := db.users ++
            [{ id := db.nextUserId, username := username,
               password := hash_pwd password }],
          nextUserId := db.nextUserId + 1 })

/-- A Python `datetime.date`: `isoformat()` renders it as zero-padded
`YYYY-MM-DD`. -/
structure PyDate where
  year : Nat
  month : Nat
  day : Nat
deriving Repr, DecidableEq

/-- Zero-pad a numeral to two digits, as `isoformat` and pandas do. -/
def pad2 (n : Nat) : String :=
  if n < 10 then "0" ++ toString n else toString n

def PyDate.isoformat (d : PyDate) : String :=
  toString d.year ++ "-" ++ pad2 d.month ++ "-" ++ pad2 d.day

/-- Source `add_tx` (lines 87-93): inserts the isoformat date, category,
amount and the current user's id. -/
def add_tx (db : DB) (user_id : Nat) (date : PyDate) (category : String)
    (amount : Int) : DB :=
  { db with
      txs := db.txs ++
        [{ id := db.nextTxId, date := date.isoformat, category := category,
           amount := amount, user_id := some user_id }],
      nextTxId := db.nextTxId + 1 }

/-- Byte-wise (codepoint-lexicographic) string comparison on the underlying
character lists: for UTF-8 text, codepoint order coincides with the byte
order SQLite's default BINARY collation uses for `ORDER BY` on TEXT. -/
def charListLe : List Char → List Char → Bool
  | [], _ => true
  | _ :: _, [] => false
  | a :: as, b :: bs =>
    if a < b then true else if b < a then false else charListLe as bs

/-- SQLite BINARY-collation `<=` on TEXT values. -/
def strLe (a b : String) : Bool := charListLe a.data b.data

/-- The proposition form of `strLe`, used as the sorting relation. -/
def strLeP (a b : String) : Prop := strLe a b = true

/-- Date order on transaction rows: how `ORDER BY date` compares the stored
TEXT column. -/
def txDateLe (a b : TxRow) : Prop := strLeP a.date b.date

/-- Split a character list at every occurrence of a separator, keeping empty
pieces, as Python and SQL string splitting do. -/
def splitOnChar (sep : Char) : List Char → List (List Char)
  | [] => [[]]
  | c :: cs =>
    if c = sep then [] :: splitOnChar sep cs
    else
      match splitOnChar sep cs with
      | [] => [[c]]
      | p :: ps => (c :: p) :: ps

/-- The numeric value of a decimal digit character, `none` otherwise. -/
def digitVal? (c : Char) : Option Nat :=
  if c.toNat < 48 ∨ 57 < c.toNat then none else some (c.toNat - 48)

def digitsToNatAux : List Char → Nat → Option Nat
  | [], acc => some acc
  | c :: cs, acc =>
    match digitVal? c with
    | none => none
    | some d => digitsToNatAux cs (acc * 10 + d)

/-- Parse a non-empty all-digit character list as a natural number. -/
def digitsToNat? : List Char → Option Nat
  | [] => none
  | cs => digitsToNatAux cs 0

/-- Gregorian leap-year test, as pandas applies when validating a day. -/
def isLeap (y : Nat) : Bool :=
  (y % 4 == 0 && y % 100 != 0) || y % 400 == 0

/-- Days in a month, used to validate the day component of a date. -/
def daysInMonth (y m : Nat) : Nat :=
  if m = 2 then (if isLeap y then 29 else 28)
  else if m = 4 ∨ m = 6 ∨ m = 9 ∨ m = 11 then 30
  else 31

/-- Models `pd.to_datetime(s).dt.date.astype(str)` (source line 105) on
dash-separated numeric dates with an unambiguous four-digit year: the stored
string is parsed and re-rendered as canonical zero-padded `YYYY-MM-DD`.
`none` models the parse failure pandas raises on other strings. -/
def normalizeDate (s : String) : Option String :=
  match splitOnChar '-' s.data with
  | [y, m, d] =>
    match digitsToNat? y, digitsToNat? m, digitsToNat? d with
    | some yn, some mn, some dn =>
      if y.length = 4 ∧ m.length ≤ 2 ∧ d.length ≤ 2 ∧ 1 ≤ mn ∧ mn ≤ 12 ∧
          1 ≤ dn ∧ dn ≤ daysInMonth yn mn
      then some (String.mk y ++ "-" ++ pad2 mn ++ "-" ++ pad2 dn)
      else none
    | _, _, _ => none
  | _ => none

/-- A transaction row with its date replaced by the canonical rendering (the
`getD` default is never reached when the date parses). -/
def normRow (t : TxRow) : TxRow :=
  { t with date := (normalizeDate t.date).getD t.date }

instance : DecidableRel txDateLe :=
  fun a b => inferInstanceAs (Decidable (strLe a.date b.date = true))

instance : DecidableRel strLeP :=
  fun a b => inferInstanceAs (Decidable (strLe a b = true))

/-- Source `fetch_tx` (lines 96-107): `SELECT * FROM transactions WHERE
user_id=? ORDER BY date` filters the current user's rows and sorts them by the
stored date TEXT (byte-wise, SQLite BINARY collation); an empty result is
returned as-is; otherwise the date column is normalised via
`pd.to_datetime(...).dt.date.astype(str)`, which raises — modelled as `none` —
when some stored date does not parse.  (The derived `Month` column is
`monthKey` below.) -/
def fetch_tx (db : DB) (user_id : Nat) : Option (List TxRow) :=
  let rows := db.txs.filter fun t => t.user_id == some user_id
  let sorted := rows.insertionSort txDateLe
  if sorted.all (fun t => (normalizeDate t.date).isSome)
  then some (sorted.map normRow)
  else none

/-- Source `delete_tx` (lines 110-116): `DELETE FROM transactions WHERE id=?
AND user_id=?` removes exactly the rows matching both, and nothing else; zero
matches is a silent no-op. -/
def delete_tx (db : DB) (user_id : Nat) (tx_id : Nat) : DB :=
  { db with
      txs := db.txs.filter fun t =>
        ¬(t.id = tx_id ∧ t.user_id = some user_id) }

/-- The derived `Month` column (source line 106): for a canonical
`YYYY-MM-DD` date, `to_period("M").astype(str)` is its first seven
characters. -/
def monthKey (t : TxRow) : String := t.date.take 7

/-- Source line 214, `df.groupby("Month")["amount"].sum().reset_index()`:
pandas groups rows by their month key, sums `amount` within each group, and
lists the groups in ascending key order (groupby sorts its keys). -/
def monthly_totals (txs : List TxRow) : List (String × Int) :=
  (((txs.map monthKey).dedup).insertionSort strLeP).map
    fun k => (k, ((txs.filter fun t => monthKey t == k).map TxRow.amount).sum)

/-- Source line 215, `month_totals.iloc[-1]`: the last bucket; `iloc[-1]` on
an empty frame raises, modelled as `none` (the caller guards with the
`df.empty` branch at lines 210-212). -/
def current_month_savings (buckets : List (String × Int)) : Option Int :=
  buckets.getLast?.map Prod.snd

/-- Lower-casing of a string, used to state that two usernames differ only in
letter case. -/
def lowerStr (s : String) : String := String.mk (s.data.map Char.toLower)

/-! ### The byte-wise order is total and transitive -/

theorem charListLe_total : ∀ as bs : List Char,
    charListLe as bs = true ∨ charListLe bs as = true
  | [], _ => Or.inl rfl
  | _ :: _, [] => Or.inr rfl
  | a :: as, b :: bs => by
    rcases lt_trichotomy a b with h | h | h
    · left; simp [charListLe, h]
    · subst h
      rcases charListLe_total as bs with ih | ih
      · left; simp [charListLe, lt_irrefl, ih]
      · right; simp [charListLe, lt_irrefl, ih]
    · right; simp [charListLe, h]

theorem charListLe_trans : ∀ as bs cs : List Char,
    charListLe as bs = true → charListLe bs cs = true → charListLe as cs = true
  | [], _, _, _, _ => rfl
  | _ :: _, [], _, h1, _ => by simp [charListLe] at h1
  | _ :: _, _ :: _, [], _, h2 => by simp [charListLe] at h2
  | a :: as, b :: bs, c :: cs, h1, h2 => by
    simp only [charListLe] at h1 h2 ⊢
    rcases lt_trichotomy a b with hab | hab | hab
    · rcases lt_trichotomy b c with hbc | hbc | hbc
      · simp [lt_trans hab hbc]
      · subst hbc; simp [hab]
      · simp [lt_asymm hbc, hbc] at h2
    · subst hab
      simp only [lt_irrefl, if_false] at h1
      rcases lt_trichotomy a c with hac | hac | hac
      · simp [hac]
      · subst hac
        simp only [lt_irrefl, if_false] at h2 ⊢
        exact charListLe_trans as bs cs h1 h2
      · simp [lt_asymm hac, hac] at h2
    · simp [lt_asymm hab, hab] at h1

instance : IsTrans String strLeP :=
  ⟨fun a b c => charListLe_trans a.data b.data c.data⟩

instance : IsTotal String strLeP :=
  ⟨fun a b => charListLe_total a.data b.data⟩

instance : IsTrans TxRow txDateLe :=
  ⟨fun a b c => charListLe_trans a.date.data b.date.data c.date.data⟩

instance : IsTotal TxRow txDateLe :=
  ⟨fun a b => charListLe_total a.date.data b.date.data⟩

/-! ### Shared characterisation lemmas -/

/-- When the `user_id` column is missing, `ensure_schema` leaves the
transaction rows in place, only filling the fresh column. -/
theorem ensure_schema_txs (hash_pwd : String → String) (db : DB)
    (h : db.txHasUserId = false) :
    (ensure_schema hash_pwd db).txs =
      db.txs.map fun t =>
        if t.user_id = none then { t with user_id := some 1 } else t := by
  simp only [ensure_schema, h]
  split <;> simp

/-- When every stored date parses, `fetch_tx` succeeds and returns the
sorted, normalised matching rows. -/
theorem fetch_tx_eq_of_dates (db : DB) (uid : Nat)
    (hdates : ∀ t ∈ db.txs, (normalizeDate t.date).isSome) :
    fetch_tx db uid =
      some (((db.txs.filter fun t => t.user_id == some uid).insertionSort
        txDateLe).map normRow) := by
  unfold fetch_tx
  rw [if_pos]
  rw [List.all_eq_true]
  intro t ht
  have hmem : t ∈ db.txs.filter fun t => t.user_id == some uid :=
    (List.perm_insertionSort txDateLe _).mem_iff.mp ht
  exact hdates t (List.mem_filter.mp hmem).1

/-- A row whose date is already canonical is untouched by normalisation. -/
theorem normRow_id {t : TxRow} (h : normalizeDate t.date = some t.date) :
    normRow t = t := by
  unfold normRow
  rw [h]
  rfl

/-- Helper: with unique stored usernames, `authenticate` returns `some i`
exactly when the user with that username is stored with digest
`hash_pwd password` and id `i`. -/
theorem authenticate_some_iff (hash_pwd : String → String) (db : DB)
    (username password : String)
    (huniq : (db.users.map UserRow.username).Nodup) (i : Nat) :
    authenticate hash_pwd db username password = some i ↔
      ∃ u ∈ db.users, u.username = username ∧
        u.password = hash_pwd password ∧ u.id = i := by
  unfold authenticate
  cases hfind : db.users.find? (fun u => u.username == username) with
  | none =>
    constructor
    · intro h; simp at h
    · rintro ⟨u, hu, hname, -, -⟩
      have hnone := List.find?_eq_none.mp hfind u hu
      simp [hname] at hnone
  | some u =>
    have hu : u ∈ db.users := List.mem_of_find?_eq_some hfind
    have hname : u.username = username := by
      have hp := List.find?_some hfind
      simpa using hp
    show (if u.password = hash_pwd password then some u.id else none) = some i ↔ _
    by_cases hpwd : u.password = hash_pwd password
    · rw [if_pos hpwd]
      constructor
      · intro h
        obtain rfl : u.id = i := by injection h
        exact ⟨u, hu, hname, hpwd, rfl⟩
      · rintro ⟨v, hv, hvname, hvpwd, hvid⟩
        have huv : v = u :=
          List.inj_on_of_nodup_map huniq hv hu (by rw [hvname, hname])
        subst huv
        rw [hvid]
    · rw [if_neg hpwd]
      constructor
      · intro h; cases h
      · rintro ⟨v, hv, hvname, hvpwd, hvid⟩
        have huv : v = u :=
          List.inj_on_of_nodup_map huniq hv hu (by rw [hvname, hname])
        subst huv
        exact absurd hvpwd hpwd

/-- C1: `hash_pwd` is deterministic (equal plaintexts always yield equal
digests), and `authenticate(username, plaintext)` returns the id of the user
whose stored username exactly equals the given username iff that user exists
with stored digest equal to `hash_pwd plaintext`; in every other case it
returns `none` (the no-match value), not an error. -/
theorem C1_authenticate_correct (hash_pwd : String → String) (db : DB)
    (username password : String)
    (huniq : (db.users.map UserRow.username).Nodup) :
    (∀ p q : String, p = q → hash_pwd p = hash_pwd q) ∧
    (∀ i : Nat, authenticate hash_pwd db username password = some i ↔
      ∃ u ∈ db.users, u.username = username ∧
        u.password = hash_pwd password ∧ u.id = i) ∧
    (authenticate hash_pwd db username password = none ↔
      ¬ ∃ u ∈ db.users, u.username = username ∧
        u.password = hash_pwd password) := by
  refine ⟨fun p q h => congrArg hash_pwd h,
    fun i => authenticate_some_iff hash_pwd db username password huniq i, ?_, ?_⟩
  · rintro hnone ⟨u, hu, hname, hpwd⟩
    have hsome := (authenticate_some_iff hash_pwd db username password huniq
      u.id).mpr ⟨u, hu, hname, hpwd, rfl⟩
    rw [hsome] at hnone
    cases hnone
  · intro hno
    cases hauth : authenticate hash_pwd db username password with
    | none => rfl
    | some i =>
      obtain ⟨u, hu, hname, hpwd, -⟩ :=
        (authenticate_some_iff hash_pwd db username password huniq i).mp hauth
      exact absurd ⟨u, hu, hname, hpwd⟩ hno

/-- Witness for C1 at a concrete store: the seed user authenticates and gets
id 1. -/
theorem C1_authenticate_correct_witness :
    authenticate (fun s => s)
      { usersTableExists := true, txTableExists := true, txHasUserId := true,
        users := [{ id := 1, username := "admin", password := "admin" }],
        txs := [], nextUserId := 2, nextTxId := 1 } "admin" "admin" = some 1 :=
  ((C1_authenticate_correct (fun s => s)
      { usersTableExists := true, txTableExists := true, txHasUserId := true,
        users := [{ id := 1, username := "admin", password := "admin" }],
        txs := [], nextUserId := 2, nextTxId := 1 } "admin" "admin"
      (by decide)).2.1 1).mpr
    ⟨{ id := 1, username := "admin", password := "admin" },
      by simp, rfl, rfl, rfl⟩

/-- C5: `ensure_schema` is idempotent — running it a second time returns the
store of the first run unchanged (same schema flags, same users, same
transaction rows, no second seed user) — and its first run on an empty store
creates exactly one user, `admin`, with digest `hash_pwd "admin"`. -/
theorem C5_ensure_schema_idempotent (hash_pwd : String → String) (db : DB) :
    ensure_schema hash_pwd (ensure_schema hash_pwd db) =
      ensure_schema hash_pwd db ∧
    (ensure_schema hash_pwd DB.empty).users =
      [{ id := 1, username := "admin", password := hash_pwd "admin" }] := by
  constructor
  · obtain ⟨ute, tte, thu, us, ts, nu, nt⟩ := db
    simp only [ensure_schema]
    by_cases hus : us.length = 0 <;> by_cases hthu : thu = true <;>
      simp [hus, hthu]
  · simp [ensure_schema, DB.empty]

/-- C6: a successful `create_user` followed by `create_user` with the same
username returns `false` the second time with the store unchanged (the
uniqueness violation surfaces only as the Boolean result, which is total —
never a propagated storage error), and the user count grows by exactly one
across the two calls. -/
theorem C6_create_user_duplicate (hash_pwd : String → String) (db : DB)
    (u p1 p2 : String)
    (hfirst : (create_user hash_pwd db u p1).1 = true) :
    (create_user hash_pwd (create_user hash_pwd db u p1).2 u p2).1 = false ∧
    (create_user hash_pwd db u p1).2.users.length = db.users.length + 1 ∧
    (create_user hash_pwd (create_user hash_pwd db u p1).2 u p2).2 =
      (create_user hash_pwd db u p1).2 := by
  by_cases h : db.users.any (fun v => v.username == u)
  · rw [show (create_user hash_pwd db u p1).1 = false by
      simp [create_user, h]] at hfirst
    cases hfirst
  · have hsnd : (create_user hash_pwd db u p1).2 =
        { db with
            users := db.users ++
              [{ id := db.nextUserId, username := u,
                 password := hash_pwd p1 }],
            nextUserId := db.nextUserId + 1 } := by
      simp [create_user, h]
    rw [hsnd]
    have hany : (db.users ++
        [({ id := db.nextUserId, username := u,
            password := hash_pwd p1 } : UserRow)]).any
          (fun v => v.username == u) = true := by
      simp [List.any_append]
    refine ⟨?_, ?_, ?_⟩
    · simp [create_user, hany]
    · simp
    · simp [create_user, hany]

/-- Witness for C6: on a store holding only the seed user, creating `bob`
succeeds and a second `bob` is refused. -/
theorem C6_create_user_duplicate_witness :
    (create_user (fun s => s)
      (create_user (fun s => s)
        { usersTableExists := true, txTableExists := true, txHasUserId := true,
          users := [{ id := 1, username := "admin", password := "admin" }],
          txs := [], nextUserId := 2, nextTxId := 1 } "bob" "pw1").2
      "bob" "pw2").1 = false :=
  (C6_create_user_duplicate (fun s => s)
    { usersTableExists := true, txTableExists := true, txHasUserId := true,
      users := [{ id := 1, username := "admin", password := "admin" }],
      txs := [], nextUserId := 2, nextTxId := 1 } "bob" "pw1" "pw2"
    (by decide)).1

/-- C8: `delete_tx` removes a row exactly when both the transaction id and
the owning user id match; every other row survives in place (the remainder is
a sublist), the users table is untouched, and when nothing matches —
nonexistent id or a row owned by another user — the whole store is unchanged
(the call is total: a silent no-op, never an error). -/
theorem C8_delete_tx_scoped (db : DB) (uid tx_id : Nat) :
    (∀ t, t ∈ (delete_tx db uid tx_id).txs ↔
      t ∈ db.txs ∧ ¬(t.id = tx_id ∧ t.user_id = some uid)) ∧
    (delete_tx db uid tx_id).txs.Sublist db.txs ∧
    (delete_tx db uid tx_id).users = db.users ∧
    ((∀ t ∈ db.txs, ¬(t.id = tx_id ∧ t.user_id = some uid)) →
      delete_tx db uid tx_id = db) := by
  refine ⟨?_, List.filter_sublist _, rfl, ?_⟩
  · intro t
    simp only [delete_tx, List.mem_filter, decide_eq_true_eq]
  · intro hnone
    have hfil : (db.txs.filter fun t =>
        ¬(t.id = tx_id ∧ t.user_id = some uid)) = db.txs :=
      List.filter_eq_self.mpr (by
        intro t ht
        simp only [decide_eq_true_eq]
        exact hnone t ht)
    unfold delete_tx
    rw [hfil]

/-- C9: `change_password` can modify only the stored digest of the rows whose
id matches: transactions are untouched, the id-username projection of the
users table is unchanged row-for-row, unaffected users survive verbatim, the
matching user survives with only its digest replaced, and when no user has
the id the whole store is unchanged. -/
theorem C9_change_password_frame (hash_pwd : String → String) (db : DB)
    (uid : Nat) (new_pwd : String) :
    (change_password hash_pwd db uid new_pwd).txs = db.txs ∧
    (change_password hash_pwd db uid new_pwd).users.map
        (fun u => (u.id, u.username)) =
      db.users.map (fun u => (u.id, u.username)) ∧
    (∀ u ∈ db.users, u.id ≠ uid →
      u ∈ (change_password hash_pwd db uid new_pwd).users) ∧
    (∀ u ∈ db.users, u.id = uid →
      { u with password := hash_pwd new_pwd } ∈
        (change_password hash_pwd db uid new_pwd).users) ∧
    ((∀ u ∈ db.users, u.id ≠ uid) →
      change_password hash_pwd db uid new_pwd = db) := by
  refine ⟨rfl, ?_, ?_, ?_, ?_⟩
  · unfold change_password
    rw [List.map_map]
    refine List.map_congr_left ?_
    intro u hu
    by_cases h : u.id = uid <;> simp [Function.comp, h]
  · intro u hu hne
    exact List.mem_map.mpr ⟨u, hu, by simp [hne]⟩
  · intro u hu heq
    exact List.mem_map.mpr ⟨u, hu, by simp [heq]⟩
  · intro hall
    unfold change_password
    have hmap : db.users.map (fun u =>
        if u.id = uid then { u with password := hash_pwd new_pwd } else u) =
        db.users := by
      conv_rhs => rw [← List.map_id db.users]
      refine List.map_congr_left ?_
      intro u hu
      simp [hall u hu]
    rw [hmap]

/-- C10: username uniqueness is byte-wise, hence case-sensitive: when some
stored username `u` differs from `v` only in letter case and no stored
username byte-equals `v`, `create_user` with `v` succeeds — it returns `true`
and adds one new, distinct user row carrying username `v` and a fresh id. -/
theorem C10_create_user_case_sensitive (hash_pwd : String → String) (db : DB)
    (u v p : String)
    (hu : u ∈ db.users.map UserRow.username)
    (hne : v ≠ u)
    (hcase : lowerStr v = lowerStr u)
    (hnew : ∀ w ∈ db.users, w.username ≠ v) :
    (create_user hash_pwd db v p).1 = true ∧
    (create_user hash_pwd db v p).2.users.length = db.users.length + 1 ∧
    ∃ w ∈ (create_user hash_pwd db v p).2.users,
      w.username = v ∧ w.id = db.nextUserId := by
  have hany : db.users.any (fun w => w.username == v) = false := by
    rw [List.any_eq_false]
    intro w hw
    simpa using hnew w hw
  refine ⟨by simp [create_user, hany], by simp [create_user, hany], ?_⟩
  refine ⟨{ id := db.nextUserId, username := v, password := hash_pwd p },
    ?_, rfl, rfl⟩
  simp [create_user, hany]

/-- Witness for C10: with `Admin` stored, creating `admin` succeeds. -/
theorem C10_create_user_case_sensitive_witness :
    (create_user (fun s => s)
      { usersTableExists := true, txTableExists := true, txHasUserId := true,
        users := [{ id := 1, username := "Admin", password := "pw" }],
        txs := [], nextUserId := 2, nextTxId := 1 } "admin" "pw2").1 = true :=
  (C10_create_user_case_sensitive (fun s => s)
    { usersTableExists := true, txTableExists := true, txHasUserId := true,
      users := [{ id := 1, username := "Admin", password := "pw" }],
      txs := [], nextUserId := 2, nextTxId := 1 } "Admin" "admin" "pw2"
    (by decide) (by decide) (by decide) (by decide)).1

/-- C2: `monthly_totals` on a date-ascending transaction sequence groups the
rows by the first-seven-character month key of their dates, sums `amount`
within each group, and returns one bucket per occurring month in ascending
month order (no month repeated); in particular the three example transactions
yield exactly the two stated buckets. -/
theorem C2_monthly_totals_groups (txs : List TxRow)
    (hsorted : txs.Pairwise txDateLe) :
    ((monthly_totals txs).map Prod.fst).Pairwise strLeP ∧
    ((monthly_totals txs).map Prod.fst).Nodup ∧
    (∀ k, k ∈ (monthly_totals txs).map Prod.fst ↔
      ∃ t ∈ txs, monthKey t = k) ∧
    (∀ b ∈ monthly_totals txs,
      b.2 = ((txs.filter fun t => monthKey t == b.1).map TxRow.amount).sum) ∧
    monthly_totals
      [{ id := 1, date := "2024-01-15", category := "salary", amount := 1000,
         user_id := some 1 },
       { id := 2, date := "2024-01-20", category := "food", amount := -200,
         user_id := some 1 },
       { id := 3, date := "2024-02-01", category := "salary", amount := 500,
         user_id := some 1 }] =
      [("2024-01", 800), ("2024-02", 500)] := by
  have hkeys : (monthly_totals txs).map Prod.fst =
      ((txs.map monthKey).dedup).insertionSort strLeP := by
    unfold monthly_totals
    rw [List.map_map]
    conv_rhs =>
      rw [← List.map_id (((txs.map monthKey).dedup).insertionSort strLeP)]
    refine List.map_congr_left ?_
    intro k hk
    rfl
  refine ⟨?_, ?_, ?_, ?_, by decide⟩
  · rw [hkeys]
    exact List.sorted_insertionSort strLeP _
  · rw [hkeys]
    exact ((List.perm_insertionSort strLeP _).nodup_iff).mpr
      (List.nodup_dedup _)
  · intro k
    rw [hkeys, (List.perm_insertionSort strLeP _).mem_iff, List.mem_dedup]
    simp [List.mem_map]
  · intro b hb
    unfold monthly_totals at hb
    obtain ⟨k, hk, rfl⟩ := List.mem_map.mp hb
    rfl

/-- Witness for C2 at the spec's example transactions. -/
theorem C2_monthly_totals_groups_witness :
    monthly_totals
      [{ id := 1, date := "2024-01-15", category := "salary", amount := 1000,
         user_id := some 1 },
       { id := 2, date := "2024-01-20", category := "food", amount := -200,
         user_id := some 1 },
       { id := 3, date := "2024-02-01", category := "salary", amount := 500,
         user_id := some 1 }] =
      [("2024-01", 800), ("2024-02", 500)] :=
  (C2_monthly_totals_groups
    [{ id := 1, date := "2024-01-15", category := "salary", amount := 1000,
       user_id := some 1 },
     { id := 2, date := "2024-01-20", category := "food", amount := -200,
       user_id := some 1 },
     { id := 3, date := "2024-02-01", category := "salary", amount := 500,
       user_id := some 1 }] (by decide)).2.2.2.2

/-- C3: `current_month_savings` of a non-empty bucket sequence is the total
of its last (chronologically latest) bucket; on the buckets of the example
transactions it is 500; on the empty sequence the result is the undefined
marker `none` (the source's `iloc[-1]` would raise, so the caller guards with
the empty-frame branch). -/
theorem C3_current_month_savings_last (buckets : List (String × Int))
    (h : buckets ≠ []) :
    current_month_savings buckets = some ((buckets.getLast h).2) ∧
    current_month_savings [] = none ∧
    current_month_savings (monthly_totals
      [{ id := 1, date := "2024-01-15", category := "salary", amount := 1000,
         user_id := some 1 },
       { id := 2, date := "2024-01-20", category := "food", amount := -200,
         user_id := some 1 },
       { id := 3, date := "2024-02-01", category := "salary", amount := 500,
         user_id := some 1 }]) = some 500 := by
  refine ⟨?_, rfl, by decide⟩
  unfold current_month_savings
  rw [List.getLast?_eq_getLast buckets h]
  rfl

/-- Witness for C3 at the example buckets. -/
theorem C3_current_month_savings_last_witness :
    current_month_savings [("2024-01", 800), ("2024-02", 500)] = some 500 :=
  (C3_current_month_savings_last [("2024-01", 800), ("2024-02", 500)]
    (by decide)).1

/-- C4: running `ensure_schema` against a store whose `transactions` table
exists but lacks the `user_id` column (so every legacy row reads NULL for it)
keeps every pre-existing row, backfilling each with `user_id = 1` — the seed
user — and, provided the stored dates parse, every pre-existing row is
returned by fetching user 1's transactions. -/
theorem C4_migration_backfill (hash_pwd : String → String) (db : DB)
    (hnocol : db.txHasUserId = false)
    (hnull : ∀ t ∈ db.txs, t.user_id = none)
    (hdates : ∀ t ∈ db.txs, (normalizeDate t.date).isSome) :
    (ensure_schema hash_pwd db).txs =
      db.txs.map (fun t => { t with user_id := some 1 }) ∧
    ∃ l, fetch_tx (ensure_schema hash_pwd db) 1 = some l ∧
      ∀ t ∈ db.txs, normRow { t with user_id := some 1 } ∈ l := by
  have htxs : (ensure_schema hash_pwd db).txs =
      db.txs.map (fun t => { t with user_id := some 1 }) := by
    rw [ensure_schema_txs hash_pwd db hnocol]
    refine List.map_congr_left ?_
    intro t ht
    rw [if_pos (hnull t ht)]
  have hdates2 : ∀ t ∈ (ensure_schema hash_pwd db).txs,
      (normalizeDate t.date).isSome := by
    rw [htxs]
    intro t ht
    obtain ⟨t0, ht0, rfl⟩ := List.mem_map.mp ht
    exact hdates t0 ht0
  refine ⟨htxs, _,
    fetch_tx_eq_of_dates (ensure_schema hash_pwd db) 1 hdates2, ?_⟩
  intro t ht
  have hmem1 : ({ t with user_id := some 1 } : TxRow) ∈
      (ensure_schema hash_pwd db).txs := by
    rw [htxs]
    exact List.mem_map.mpr ⟨t, ht, rfl⟩
  have hmemf : ({ t with user_id := some 1 } : TxRow) ∈
      (ensure_schema hash_pwd db).txs.filter
        (fun s => s.user_id == some 1) :=
    List.mem_filter.mpr ⟨hmem1, by simp⟩
  have hmems : ({ t with user_id := some 1 } : TxRow) ∈
      ((ensure_schema hash_pwd db).txs.filter
        (fun s => s.user_id == some 1)).insertionSort txDateLe :=
    (List.perm_insertionSort txDateLe _).mem_iff.mpr hmemf
  exact List.mem_map.mpr ⟨_, hmems, rfl⟩

/-- Witness for C4: one legacy row (NULL `user_id`) is backfilled to user 1
and comes back from the fetch. -/
theorem C4_migration_backfill_witness :
    (ensure_schema (fun s => s)
      { usersTableExists := true, txTableExists := true, txHasUserId := false,
        users := [{ id := 1, username := "admin", password := "admin" }],
        txs := [{ id := 1, date := "2024-01-15", category := "food",
                  amount := -200, user_id := none }],
        nextUserId := 2, nextTxId := 2 }).txs =
      [{ id := 1, date := "2024-01-15", category := "food", amount := -200,
         user_id := some 1 }] ∧
    ∃ l, fetch_tx (ensure_schema (fun s => s)
      { usersTableExists := true, txTableExists := true, txHasUserId := false,
        users := [{ id := 1, username := "admin", password := "admin" }],
        txs := [{ id := 1, date := "2024-01-15", category := "food",
                  amount := -200, user_id := none }],
        nextUserId := 2, nextTxId := 2 }) 1 = some l ∧
      ∀ t ∈ [({ id := 1, date := "2024-01-15", category := "food",
                amount := -200, user_id := none } : TxRow)],
        normRow { t with user_id := some 1 } ∈ l :=
  C4_migration_backfill (fun s => s)
    { usersTableExists := true, txTableExists := true, txHasUserId := false,
      users := [{ id := 1, username := "admin", password := "admin" }],
      txs := [{ id := 1, date := "2024-01-15", category := "food",
                amount := -200, user_id := none }],
      nextUserId := 2, nextTxId := 2 } rfl (by decide) (by decide)

/-- C7 (amended): `fetch_tx` returns exactly the rows whose `user_id`
matches, each with its date normalised to canonical `YYYY-MM-DD` form,
ordered ascending by the stored date string (SQLite BINARY order); whenever
every stored date is already canonical, that order is ascending by date; and
a user with no rows gets the empty sequence, not an error. -/
theorem C7_fetch_tx_amended (db : DB) (uid : Nat)
    (hdates : ∀ t ∈ db.txs, (normalizeDate t.date).isSome) :
    (∃ raw : List TxRow, fetch_tx db uid = some (raw.map normRow) ∧
      raw.Perm (db.txs.filter fun t => t.user_id == some uid) ∧
      raw.Pairwise txDateLe ∧
      ((∀ t ∈ db.txs, normalizeDate t.date = some t.date) →
        (raw.map normRow).Pairwise txDateLe)) ∧
    ((db.txs.filter fun t => t.user_id == some uid) = [] →
      fetch_tx db uid = some []) := by
  have hfe := fetch_tx_eq_of_dates db uid hdates
  constructor
  · refine ⟨(db.txs.filter fun t => t.user_id == some uid).insertionSort
        txDateLe,
      hfe, List.perm_insertionSort txDateLe _,
      List.sorted_insertionSort txDateLe _, ?_⟩
    intro hcanon
    have hid : ((db.txs.filter fun t => t.user_id == some uid).insertionSort
        txDateLe).map normRow =
        (db.txs.filter fun t => t.user_id == some uid).insertionSort
          txDateLe := by
      conv_rhs =>
        rw [← List.map_id ((db.txs.filter fun t =>
          t.user_id == some uid).insertionSort txDateLe)]
      refine List.map_congr_left ?_
      intro t ht
      have htmem : t ∈ db.txs :=
        (List.mem_filter.mp
          ((List.perm_insertionSort txDateLe _).mem_iff.mp ht)).1
      show normRow t = id t
      rw [normRow_id (hcanon t htmem)]
      rfl
    rw [hid]
    exact List.sorted_insertionSort txDateLe _
  · intro hempty
    rw [hfe, hempty]
    rfl

/-- Witness for the amended C7 at a store with canonical dates: both rows of
user 1 come back, date-ascending, and user 2 gets the empty sequence. -/
theorem C7_fetch_tx_amended_witness :
    (∃ raw : List TxRow, fetch_tx
        { usersTableExists := true, txTableExists := true, txHasUserId := true,
          users := [{ id := 1, username := "admin", password := "admin" }],
          txs := [{ id := 1, date := "2024-01-15", category := "salary",
                    amount := 1000, user_id := some 1 },
                  { id := 2, date := "2024-01-20", category := "food",
                    amount := -200, user_id := some 1 }],
          nextUserId := 2, nextTxId := 3 } 1 = some (raw.map normRow) ∧
      raw.Perm (List.filter (fun t => t.user_id == some 1)
        [{ id := 1, date := "2024-01-15", category := "salary",
           amount := 1000, user_id := some 1 },
         { id := 2, date := "2024-01-20", category := "food",
           amount := -200, user_id := some 1 }]) ∧
      raw.Pairwise txDateLe ∧
      ((∀ t ∈ [({ id := 1, date := "2024-01-15", category := "salary",
                  amount := 1000, user_id := some 1 } : TxRow),
                { id := 2, date := "2024-01-20", category := "food",
                  amount := -200, user_id := some 1 }],
          normalizeDate t.date = some t.date) →
        (raw.map normRow).Pairwise txDateLe)) ∧
    ((List.filter (fun t => t.user_id == some 1)
        [({ id := 1, date := "2024-01-15", category := "salary",
            amount := 1000, user_id := some 1 } : TxRow),
         { id := 2, date := "2024-01-20", category := "food",
           amount := -200, user_id := some 1 }]) = [] →
      fetch_tx
        { usersTableExists := true, txTableExists := true, txHasUserId := true,
          users := [{ id := 1, username := "admin", password := "admin" }],
          txs := [{ id := 1, date := "2024-01-15", category := "salary",
                    amount := 1000, user_id := some 1 },
                  { id := 2, date := "2024-01-20", category := "food",
                    amount := -200, user_id := some 1 }],
          nextUserId := 2, nextTxId := 3 } 1 = some []) :=
  C7_fetch_tx_amended
    { usersTableExists := true, txTableExists := true, txHasUserId := true,
      users := [{ id := 1, username := "admin", password := "admin" }],
      txs := [{ id := 1, date := "2024-01-15", category := "salary",
                amount := 1000, user_id := some 1 },
              { id := 2, date := "2024-01-20", category := "food",
                amount := -200, user_id := some 1 }],
      nextUserId := 2, nextTxId := 3 } 1 (by decide)

/-- Counterexample to C7 as stated: with a legacy, non-canonical stored date
in the table, the rows come back normalised but NOT ascending by date.
`ORDER BY date` sorts the raw strings, and "2024-01-15" sorts before
"2024-1-5" in byte order although January 5 precedes January 15; the
normalised output lists 2024-01-15 before 2024-01-05. -/
theorem C7_fetch_tx_counterexample :
    fetch_tx
      { usersTableExists := true, txTableExists := true, txHasUserId := true,
        users := [{ id := 1, username := "admin", password := "admin" }],
        txs := [{ id := 1, date := "2024-1-5", category := "a", amount := 1,
                  user_id := some 1 },
                { id := 2, date := "2024-01-15", category := "b", amount := 2,
                  user_id := some 1 }],
        nextUserId := 2, nextTxId := 3 } 1 =
      some [{ id := 2, date := "2024-01-15", category := "b", amount := 2,
              user_id := some 1 },
            { id := 1, date := "2024-01-05", category := "a", amount := 1,
              user_id := some 1 }] ∧
    ¬ txDateLe
        { id := 2, date := "2024-01-15", category := "b", amount := 2,
          user_id := some 1 }
        { id := 1, date := "2024-01-05", category := "a", amount := 1,
          user_id := some 1 } := by
  exact ⟨by decide, by decide⟩

end BudgetTracker
